import Mathlib

/-!
Verification of the Student Progress Monitoring System against its
specification.  The Python sources (CWPreprocessing.py, testResults.py,
studentPerformance.py, underperformingStudent.py) are shallowly embedded
below: each pandas/sqlite operation that the claims depend on is
translated into an executable Lean definition over lists, integers and
rationals, and the claimed properties are proved about those
definitions.

Conventions of the embedding:
* a dataframe is a list of rows (structures), in file order;
* nullable integer grades are `Option ℤ` (a `none` is a NaN/null cell);
* `pandas.sort_values` on the (research_id, Grade, Test) key is modelled
  by `List.insertionSort` (every field of that key is output-relevant, so
  any sorting algorithm yields the same per-group result); the
  grade-descending sort inside deduplication, whose default quicksort
  leaves the order of grade-tied rows implementation-defined, is modelled
  parametrically by an arbitrary grade-descending permutation of the
  frame;
* floating point arithmetic in the grade rescaling is modelled by exact
  rational arithmetic, with `numpy`'s round-half-to-even rounding;
* the SQLite store is an association list from table names to tables.
-/

namespace StudentMonitoring

/-! ## Grade rescaling (CWPreprocessing.normalise_grade_to_10000)

`normalise_grade_to_10000` computes `(df["Grade"] * (10000 / grade_total)).round()`
where `.round()` is numpy rounding: round half to even. -/

/-- Round-half-to-even rounding on rationals, as performed by
`pandas.Series.round` (numpy rounding) in the source. -/
def roundHalfEven (q : ℚ) : ℤ :=
  if Int.fract q < 1 / 2 then ⌊q⌋
  else if 1 / 2 < Int.fract q then ⌊q⌋ + 1
  else if Even ⌊q⌋ then ⌊q⌋ else ⌊q⌋ + 1

/-- Embedding of `CWPreprocessor.normalise_grade_to_10000` (CWPreprocessing.py
lines 86–89) applied to one raw grade cell `g`:
`df["Grade"] = (df["Grade"] * (10000 / grade_total)).round().astype("Int64")`.
The cell is the float output of `clean_numeric_columns`, so `g` is a
rational, and `.round()` is numpy's round half to even. -/
def normalise_grade_to_10000 (g : ℚ) (grade_total : ℤ) : ℤ :=
  roundHalfEven (g * (10000 / (grade_total : ℚ)))

/-- Embedding of the Mock_Test/Sum_Test grade treatment
(`df["Grade"] = df["Grade"].round().astype("Int64")`, CWPreprocessing.py
lines 267 and 313): the grade is already on the 0–10000 scale and is only
rounded (half to even). -/
def round_grade_only (g : ℚ) : ℤ :=
  roundHalfEven g

/-- The grade denominator each preprocess function passes to
`normalise_grade_to_10000` (or, for Mock_Test and Sum_Test whose raw column is
`Grade/10000`, the denominator implicit in the round-only treatment):
`preprocess_test_1` uses 600, `preprocess_test_2` 700, `preprocess_test_3` 600,
`preprocess_test_4` 1000, `preprocess_mock_test` and `preprocess_sum_test`
10000. -/
def gradeDenom (table : String) : Option ℤ :=
  if table = "Test_1" then some 600
  else if table = "Test_2" then some 700
  else if table = "Test_3" then some 600
  else if table = "Test_4" then some 1000
  else if table = "Mock_Test" then some 10000
  else if table = "Sum_Test" then some 10000
  else none

/-- The normalized grade a raw grade cell `g` receives in the table named
`table`: Test_1..Test_4 go through `normalise_grade_to_10000` with the
table's denominator, Mock_Test and Sum_Test are only rounded. -/
def normalizedGrade (table : String) (g : ℚ) : Option ℤ :=
  if table = "Test_1" then some (normalise_grade_to_10000 g 600)
  else if table = "Test_2" then some (normalise_grade_to_10000 g 700)
  else if table = "Test_3" then some (normalise_grade_to_10000 g 600)
  else if table = "Test_4" then some (normalise_grade_to_10000 g 1000)
  else if table = "Mock_Test" then some (round_grade_only g)
  else if table = "Sum_Test" then some (round_grade_only g)
  else none

lemma roundHalfEven_eq_round (q : ℚ) (h : Int.fract q ≠ 1 / 2) :
    roundHalfEven q = round q := by
  have h0 : (0 : ℚ) ≤ Int.fract q := Int.fract_nonneg q
  have h1 : Int.fract q < 1 := Int.fract_lt_one q
  have hsplit : q + 1 / 2 = ((⌊q⌋ : ℚ)) + (Int.fract q + 1 / 2) := by
    rw [← add_assoc, Int.floor_add_fract]
  rw [round_eq]
  unfold roundHalfEven
  rcases lt_or_gt_of_ne h with hlt | hgt
  · have hfl0 : ⌊Int.fract q + 1 / 2⌋ = 0 := by
      rw [Int.floor_eq_zero_iff, Set.mem_Ico]
      constructor <;> linarith
    rw [if_pos hlt, hsplit, Int.floor_int_add, hfl0, add_zero]
  · have hfl1 : ⌊Int.fract q + 1 / 2⌋ = 1 := by
      rw [Int.floor_eq_iff]
      push_cast
      constructor <;> linarith
    rw [if_neg (not_lt.mpr (le_of_lt hgt)), if_pos hgt, hsplit, Int.floor_int_add, hfl1]

lemma roundHalfEven_nonneg (q : ℚ) (h : 0 ≤ q) : 0 ≤ roundHalfEven q := by
  have : (0 : ℤ) ≤ ⌊q⌋ := Int.floor_nonneg.mpr h
  unfold roundHalfEven
  split_ifs <;> omega

lemma no_tie (g D : ℤ) (hD : D = 600 ∨ D = 700 ∨ D = 1000 ∨ D = 10000) :
    Int.fract ((g : ℚ) * (10000 / (D : ℚ))) ≠ 1 / 2 := by
  intro h
  set q : ℚ := (g : ℚ) * (10000 / (D : ℚ)) with hq
  have hfl : (⌊q⌋ : ℚ) + Int.fract q = q := Int.floor_add_fract q
  rw [h] at hfl
  have hDne : (D : ℚ) ≠ 0 := by
    rcases hD with h0 | h0 | h0 | h0 <;> rw [h0] <;> norm_num
  have key : ((⌊q⌋ : ℚ) + 1 / 2) * D = (g : ℚ) * 10000 := by
    rw [hfl, hq]
    field_simp
  have keyZ : (2 * ⌊q⌋ + 1) * D = g * 20000 := by
    have : ((2 * ⌊q⌋ + 1 : ℤ) : ℚ) * D = ((g * 20000 : ℤ) : ℚ) := by
      push_cast
      linarith [key]
    exact_mod_cast this
  rcases hD with h0 | h0 | h0 | h0 <;> rw [h0] at keyZ <;> omega

/-- Counterexample to claim C2 as stated: the raw grade cell is a float
(the output of `clean_numeric_columns`), and for the fractional grade
`g = 1/20` in Test_4 (denominator 1000) the exact value `g * 10000 / D`
is the half-integer `1/2`: the program's round half to even gives 0,
while the claimed `round (g * 10000 / D)` gives 1. -/
theorem normalise_grade_cex :
    gradeDenom ("Test_4") = some 1000 ∧ (0 : ℚ) ≤ 1 / 20 ∧
      normalizedGrade ("Test_4") (1 / 20) = some 0 ∧
      round (((1 / 20 : ℚ) * 10000) / ((1000 : ℤ) : ℚ)) = 1 ∧
      normalizedGrade ("Test_4") (1 / 20) ≠
        some (round (((1 / 20 : ℚ) * 10000) / ((1000 : ℤ) : ℚ))) := by
  have harg : ((1 / 20 : ℚ) * (10000 / ((1000 : ℤ) : ℚ))) = 1 / 2 := by norm_num
  have harg2 : (((1 / 20 : ℚ) * 10000) / ((1000 : ℤ) : ℚ)) = 1 / 2 := by norm_num
  have hfr : Int.fract (1 / 2 : ℚ) = 1 / 2 := Int.fract_eq_self.mpr (by norm_num)
  have hfl : ⌊(1 / 2 : ℚ)⌋ = 0 := by
    rw [Int.floor_eq_zero_iff, Set.mem_Ico]
    constructor <;> norm_num
  have hrhe : roundHalfEven (1 / 2 : ℚ) = 0 := by
    unfold roundHalfEven
    rw [hfr, hfl]
    norm_num
  have hcode : normalizedGrade ("Test_4") (1 / 20) = some 0 := by
    show some (normalise_grade_to_10000 (1 / 20) 1000) = some 0
    unfold normalise_grade_to_10000
    rw [harg, hrhe]
  have hclaim : round (((1 / 20 : ℚ) * 10000) / ((1000 : ℤ) : ℚ)) = 1 := by
    rw [harg2, round_eq]
    norm_num
  refine ⟨by decide, by norm_num, hcode, hclaim, ?_⟩
  rw [hcode, hclaim]
  simp

/-- Claim C2, amended: for every non-negative raw grade value `g` (a
rational — the float output of coercion) and the assessment's configured
grade denominator `D` (600 for Test_1 and Test_3, 700 for Test_2, 1000
for Test_4, 10000 for Mock_Test and Sum_Test), the normalized grade
equals the round-half-to-even of `g * 10000 / D` (numpy's `.round()`) as
an integer and is never negative; for integer raw grade values this
coincides with `round (g * 10000 / D)`, since no half-integer tie arises
at the configured denominators. -/
theorem normalise_grade_spec (table : String) (D : ℤ) (g : ℚ)
    (hD : gradeDenom table = some D) (hg : 0 ≤ g) :
    normalizedGrade table g = some (roundHalfEven ((g * 10000) / (D : ℚ))) ∧
      0 ≤ roundHalfEven ((g * 10000) / (D : ℚ)) ∧
      ∀ n : ℤ, g = (n : ℚ) →
        roundHalfEven ((g * 10000) / (D : ℚ)) = round ((g * 10000) / (D : ℚ)) := by
  have hDval : D = 600 ∨ D = 700 ∨ D = 1000 ∨ D = 10000 := by
    unfold gradeDenom at hD
    split_ifs at hD <;> simp_all
  have hDpos : (0 : ℚ) < (D : ℚ) := by
    rcases hDval with h0 | h0 | h0 | h0 <;> rw [h0] <;> norm_num
  have harg : g * (10000 / (D : ℚ)) = (g * 10000) / (D : ℚ) := by ring
  refine ⟨?_, ?_, ?_⟩
  · have hten : round_grade_only g = roundHalfEven ((g * 10000) / ((10000 : ℤ) : ℚ)) := by
      unfold round_grade_only
      have h10 : ((g * 10000) / ((10000 : ℤ) : ℚ)) = g := by
        push_cast
        field_simp
      rw [h10]
    unfold normalizedGrade
    unfold gradeDenom at hD
    split_ifs at hD ⊢ <;>
      first
        | exact Option.noConfusion hD
        | (injection hD with hD
           subst hD
           unfold normalise_grade_to_10000
           rw [harg]
        )
        | (injection hD with hD
           subst hD
           rw [hten]
        )
  · apply roundHalfEven_nonneg
    apply div_nonneg _ (le_of_lt hDpos)
    nlinarith
  · intro n hn
    subst hn
    have hnt := no_tie n D hDval
    rw [harg] at hnt
    exact roundHalfEven_eq_round _ hnt

/-- Witness for claim C2's theorem at `table = "Test_1"`, `g = 480`
(the spec's own end-to-end example: raw 480 over 600 is normalized
to 8000). -/
theorem normalise_grade_spec_witness :
    gradeDenom ("Test_1") = some 600 ∧ (0 : ℚ) ≤ 480 ∧
      (normalizedGrade ("Test_1") 480 =
          some (roundHalfEven (((480 : ℚ) * 10000) / ((600 : ℤ) : ℚ))) ∧
        0 ≤ roundHalfEven (((480 : ℚ) * 10000) / ((600 : ℤ) : ℚ)) ∧
        ∀ n : ℤ, (480 : ℚ) = (n : ℚ) →
          roundHalfEven (((480 : ℚ) * 10000) / ((600 : ℤ) : ℚ)) =
            round (((480 : ℚ) * 10000) / ((600 : ℤ) : ℚ))) :=
  ⟨by decide, by norm_num, normalise_grade_spec ("Test_1") 600 480 (by decide) (by norm_num)⟩

/-! ## Numeric coercion (CWPreprocessing.clean_numeric_columns)

`clean_numeric_columns` first replaces the placeholder `"-"` by `0` across
the whole frame, then runs `pd.to_numeric(..., errors="coerce").fillna(0)`
on each listed column: numeric cells keep their value, every other cell
(empty, NaN, or text that does not parse as a number) becomes NaN and is
then filled with 0.  A raw cell is modelled by which of those classes it
falls in; `RawCell.text` stands for a string that does not parse as a
number. -/

/-- A raw table cell as seen by `clean_numeric_columns`: a numeric value,
the literal `"-"` placeholder, an empty cell, a missing value (NaN), or
non-numeric text. -/
inductive RawCell : Type
  | num (q : ℚ)
  | dash
  | empty
  | null
  | text (s : String)
  deriving DecidableEq

/-- Embedding of `CWPreprocessor.clean_numeric_columns`
(CWPreprocessing.py lines 55–64) on a single cell of a listed numeric
column: `df.replace("-", 0)` sends the dash to 0, then
`pd.to_numeric(..., errors="coerce")` keeps numbers and turns everything
else into NaN, and `.fillna(0)` turns NaN into 0. -/
def clean_numeric_cell : RawCell → ℚ
  | RawCell.num q => q
  | RawCell.dash => 0
  | RawCell.empty => 0
  | RawCell.null => 0
  | RawCell.text _ => 0

/-- Embedding of `clean_numeric_columns` on one whole numeric column. -/
def clean_numeric_column (col : List RawCell) : List ℚ :=
  col.map clean_numeric_cell

/-- Claim C5: in every numeric column, a non-numeric or placeholder cell
(the literal `"-"`, empty, missing, or arbitrary text) normalizes to 0
after coercion, and coercion is total — every cell of the column is
coerced to some rational value, never to a failure. -/
theorem clean_numeric_spec (col : List RawCell) (c : RawCell)
    (hc : c ∈ col) (hnon : ∀ q : ℚ, c ≠ RawCell.num q) :
    (clean_numeric_cell c ∈ clean_numeric_column col ∧ clean_numeric_cell c = 0) ∧
      (clean_numeric_column col).length = col.length := by
  refine ⟨⟨List.mem_map_of_mem clean_numeric_cell hc, ?_⟩, List.length_map col _⟩
  cases c with
  | num q => exact absurd rfl (hnon q)
  | dash => rfl
  | empty => rfl
  | null => rfl
  | text s => rfl

/-- Witness for claim C5's theorem: the garbage cell `text "N/A"` inside a
small column coerces to 0. -/
theorem clean_numeric_spec_witness :
    (RawCell.text ("N/A") ∈ [RawCell.num 3, RawCell.text ("N/A"), RawCell.dash]) ∧
      (∀ q : ℚ, RawCell.text ("N/A") ≠ RawCell.num q) ∧
      ((clean_numeric_cell (RawCell.text ("N/A")) ∈
          clean_numeric_column [RawCell.num 3, RawCell.text ("N/A"), RawCell.dash] ∧
        clean_numeric_cell (RawCell.text ("N/A")) = 0) ∧
        (clean_numeric_column [RawCell.num 3, RawCell.text ("N/A"), RawCell.dash]).length =
          ([RawCell.num 3, RawCell.text ("N/A"), RawCell.dash] : List RawCell).length) :=
  ⟨by decide, fun q h => RawCell.noConfusion h,
    clean_numeric_spec _ _ (by decide) (fun q h => RawCell.noConfusion h)⟩

/-! ## The store (CWPreprocessing.write_table and run)

The SQLite database is modelled as an association list from table names to
table contents (the content type is a parameter `α`).  `write_table`
performs `df.to_sql(name, conn, if_exists="replace")`: it fully replaces
any table of the same name and touches nothing else.  `run` executes a
sequence of preprocessing steps; each step either yields a table
(`Except.ok`) or raises (`Except.error`, e.g. the `KeyError` of
`check_required_columns`), in which case the run aborts: tables already
written stay in the store and no further step runs. -/

/-- The store: a list of named tables. -/
abbrev Store (α : Type) := List (String × α)

/-- The error raised by `check_required_columns`: the table name together
with the list of missing columns (the payload of the `KeyError` message
built at CWPreprocessing.py lines 113–116). -/
abbrev SchemaErr := String × List String

/-- Look up a table by name in the store. -/
def getTable {α : Type} : Store α → String → Option α
  | [], _ => none
  | (n, t) :: s, m => if n = m then some t else getTable s m

/-- Embedding of `CWPreprocessor.write_table` (CWPreprocessing.py lines
118–120): `to_sql(..., if_exists="replace")` replaces the named table and
leaves every other table unchanged. -/
def write_table {α : Type} (store : Store α) (name : String) (t : α) : Store α :=
  match store with
  | [] => [(name, t)]
  | (n, t') :: rest =>
    if n = name then (name, t) :: rest else (n, t') :: write_table rest name t

/-- Embedding of the write sequence of `CWPreprocessor.run`
(CWPreprocessing.py lines 323–336): the preprocessing steps run in order,
each successful step's table is written via `write_table`; the first step
that raises aborts the run, leaving the store as written so far and
propagating the error. -/
def runSteps {α : Type} (store : Store α) :
    List (String × Except SchemaErr α) → Store α × Option SchemaErr
  | [] => (store, none)
  | (n, Except.ok t) :: rest => runSteps (write_table store n t) rest
  | (_, Except.error e) :: _ => (store, some e)

/-- Python's `str.strip()`: remove leading and trailing whitespace. -/
def stripSpaces (s : String) : String :=
  String.mk (((s.data.dropWhile (fun c => c.isWhitespace)).reverse.dropWhile
    (fun c => c.isWhitespace)).reverse)

/-- Embedding of `CWPreprocessor.strip_column_names` (CWPreprocessing.py
lines 44–47) on the header row. -/
def strip_column_names (cols : List String) : List String :=
  cols.map stripSpaces

/-- Embedding of `CWPreprocessor.apply_rename` (CWPreprocessing.py lines
49–52) on the header row: each column name is sent through the rename map,
names not in the map are kept. -/
def apply_rename (renameMap : List (String × String)) (cols : List String) : List String :=
  cols.map (fun c => (renameMap.lookup c).getD c)

/-- The canonical required columns checked by every preprocess function
(`["research_id", "Grade"]` — the spec calls the id column `student_id`). -/
def requiredCols : List String := ["research_id", "Grade"]

/-- Embedding of `CWPreprocessor.check_required_columns`
(CWPreprocessing.py lines 110–116): collect the required columns missing
from the frame and raise a `KeyError` naming the table and that list if
there are any. -/
def check_required_columns (cols : List String) (required : List String)
    (tableName : String) : Except SchemaErr Unit :=
  if (required.filter (fun c => decide (c ∉ cols))).isEmpty then Except.ok ()
  else Except.error (tableName, required.filter (fun c => decide (c ∉ cols)))

/-- One preprocess step as far as the schema is concerned: strip the raw
header, apply the table's rename map, check the required columns; on
success the step produces its table, otherwise it raises the schema
error (this is the shared prologue of `preprocess_test_1` ..
`preprocess_sum_test`, e.g. CWPreprocessing.py lines 125–142). -/
def preprocess_schema {α : Type} (tableName : String) (renameMap : List (String × String))
    (rawCols : List String) (table : α) : Except SchemaErr α :=
  match check_required_columns (apply_rename renameMap (strip_column_names rawCols))
      requiredCols tableName with
  | Except.ok _ => Except.ok table
  | Except.error e => Except.error e

lemma getTable_write_table {α : Type} (store : Store α) (name : String) (t : α) (m : String) :
    getTable (write_table store name t) m = if name = m then some t else getTable store m := by
  induction store with
  | nil => rfl
  | cons hd rest ih =>
    obtain ⟨n, t'⟩ := hd
    by_cases hn : n = name
    · subst hn
      simp only [write_table, if_pos rfl, getTable]
      split_ifs <;> rfl
    · simp only [write_table, if_neg hn, getTable]
      by_cases hm : n = m
      · subst hm
        have : ¬ name = n := fun h => hn h.symm
        rw [if_neg this, if_pos rfl, if_pos rfl]
      · rw [if_neg hm, ih, if_neg hm]

lemma runSteps_ok_writes {α : Type} (pre : List (String × α)) (store : Store α)
    (rest : List (String × Except SchemaErr α)) :
    runSteps store (pre.map (fun p => (p.1, Except.ok p.2)) ++ rest) =
      runSteps (pre.foldl (fun st p => write_table st p.1 p.2) store) rest := by
  induction pre generalizing store with
  | nil => rfl
  | cons hd tl ih =>
    simp only [List.map_cons, List.cons_append, runSteps, List.foldl_cons]
    exact ih (write_table store hd.1 hd.2)

/-- Claim C6: if, after renaming, `research_id` (the spec's `student_id`)
or `Grade` is absent from a raw table's columns, then its preprocessing
step fails with an error naming the table and the full set of missing
required columns, the run aborts there, no table is written for that
assessment, and the tables already written for the earlier assessments of
the run remain in the store. -/
theorem missing_columns_spec {α : Type} (pre : List (String × α)) (store : Store α)
    (name : String) (renameMap : List (String × String)) (rawCols : List String)
    (table : α) (post : List (String × Except SchemaErr α))
    (hmiss : "research_id" ∉ apply_rename renameMap (strip_column_names rawCols) ∨
      "Grade" ∉ apply_rename renameMap (strip_column_names rawCols)) :
    runSteps store (pre.map (fun p => (p.1, Except.ok p.2)) ++
        (name, preprocess_schema name renameMap rawCols table) :: post) =
      (pre.foldl (fun st p => write_table st p.1 p.2) store,
        some (name, requiredCols.filter
          (fun c => decide (c ∉ apply_rename renameMap (strip_column_names rawCols))))) := by
  rw [runSteps_ok_writes]
  set cols := apply_rename renameMap (strip_column_names rawCols) with hcols
  have hne : (requiredCols.filter (fun c => decide (c ∉ cols))).isEmpty = false := by
    rcases hmiss with hm | hm
    · have : "research_id" ∈ requiredCols.filter (fun c => decide (c ∉ cols)) := by
        rw [List.mem_filter]
        exact ⟨by simp [requiredCols], by simpa using hm⟩
      rcases h : requiredCols.filter (fun c => decide (c ∉ cols)) with _ | _
      · rw [h] at this
        cases this
      · rfl
    · have : "Grade" ∈ requiredCols.filter (fun c => decide (c ∉ cols)) := by
        rw [List.mem_filter]
        exact ⟨by simp [requiredCols], by simpa using hm⟩
      rcases h : requiredCols.filter (fun c => decide (c ∉ cols)) with _ | _
      · rw [h] at this
        cases this
      · rfl
  have hstep : preprocess_schema name renameMap rawCols table =
      Except.error ((name, requiredCols.filter (fun c => decide (c ∉ cols))) : SchemaErr) := by
    unfold preprocess_schema check_required_columns
    rw [← hcols, hne]
    rfl
  rw [hstep]
  rfl

/-- Witness for claim C6's theorem: a run whose second step reads a raw
Test_2 header lacking any grade column fails naming Test_2 and the missing
`Grade`, keeps the written Test_1 table, and writes nothing for Test_2. -/
theorem missing_columns_spec_witness :
    ("research_id" ∉ apply_rename [("research id", "research_id")]
        (strip_column_names [("research id "), ("Started on")]) ∨
      "Grade" ∉ apply_rename [("research id", "research_id")]
        (strip_column_names [("research id "), ("Started on")])) ∧
    runSteps ([] : Store ℕ) ([(("Test_1"), 7)].map (fun p => (p.1, Except.ok p.2)) ++
        (("Test_2"), preprocess_schema ("Test_2") [("research id", "research_id")]
          [("research id "), ("Started on")] 9) :: []) =
      ([(("Test_1"), 7)].foldl (fun st p => write_table st p.1 p.2) ([] : Store ℕ),
        some (("Test_2"), requiredCols.filter
          (fun c => decide (c ∉ apply_rename [("research id", "research_id")]
            (strip_column_names [("research id "), ("Started on")]))))) :=
  ⟨Or.inr (by decide), missing_columns_spec [(("Test_1"), 7)] [] ("Test_2")
    [("research id", "research_id")] [("research id "), ("Started on")] 9 [] (Or.inr (by decide))⟩

/-- The table last written for a name by a run's steps, up to the first
failing step (`none` when no successful step writes that name). -/
def lastWrite {α : Type} : List (String × Except SchemaErr α) → String → Option α
  | [], _ => none
  | (n, Except.ok t) :: rest, m =>
    match lastWrite rest m with
    | some t' => some t'
    | none => if n = m then some t else none
  | (_, Except.error _) :: _, _ => none

lemma getTable_runSteps {α : Type} (steps : List (String × Except SchemaErr α))
    (store : Store α) (m : String) :
    getTable (runSteps store steps).1 m =
      match lastWrite steps m with
      | some t => some t
      | none => getTable store m := by
  induction steps generalizing store with
  | nil => rfl
  | cons hd rest ih =>
    obtain ⟨n, te⟩ := hd
    cases te with
    | ok t =>
      show getTable (runSteps (write_table store n t) rest).1 m = _
      rw [ih]
      cases h : lastWrite rest m with
      | some t' => simp [lastWrite, h]
      | none =>
        simp only [lastWrite, h, getTable_write_table]
        split_ifs <;> rfl
    | error e => rfl

/-- Claim C7: `write_table` fully replaces the table of the same name and
leaves every other table unchanged, and running the full pipeline twice
(the same steps over the store the first run produced) yields exactly the
tables of a single run — reruns are idempotent. -/
theorem run_idempotent_spec {α : Type} :
    (∀ (store : Store α) (name : String) (t : α),
        getTable (write_table store name t) name = some t) ∧
    (∀ (store : Store α) (name : String) (t : α) (m : String), m ≠ name →
        getTable (write_table store name t) m = getTable store m) ∧
    (∀ (steps : List (String × Except SchemaErr α)) (store : Store α) (m : String),
        getTable (runSteps (runSteps store steps).1 steps).1 m =
          getTable (runSteps store steps).1 m) := by
  refine ⟨?_, ?_, ?_⟩
  · intro store name t
    rw [getTable_write_table, if_pos rfl]
  · intro store name t m hm
    rw [getTable_write_table, if_neg (fun h => hm h.symm)]
  · intro steps store m
    rw [getTable_runSteps, getTable_runSteps]
    cases h : lastWrite steps m <;> rfl

/-- Witness for claim C7's theorem: replacing table B leaves table A
unchanged, writing B makes it readable, and a rerun of a two-step run
leaves the Test_1 lookup unchanged. -/
theorem run_idempotent_spec_witness :
    (("A") : String) ≠ ("B") ∧
      getTable (write_table [(("A"), 1)] ("B") 2) ("B") = some 2 ∧
      getTable (write_table [(("A"), 1)] ("B") 2) ("A") = getTable [(("A"), 1)] ("A") ∧
      getTable
          (runSteps (runSteps ([] : Store ℕ) [(("Test_1"), Except.ok 5)]).1
            [(("Test_1"), Except.ok 5)]).1 ("Test_1") =
        getTable (runSteps ([] : Store ℕ) [(("Test_1"), Except.ok 5)]).1 ("Test_1") :=
  ⟨by decide, (@run_idempotent_spec ℕ).1 [(("A"), 1)] ("B") 2,
    (@run_idempotent_spec ℕ).2.1 [(("A"), 1)] ("B") 2 ("A") (by decide),
    (@run_idempotent_spec ℕ).2.2 [(("Test_1"), Except.ok 5)] [] ("Test_1")⟩

/-! ## Underperforming-student detection (underperformingStudent.py)

`find_underperforming_students` reads the normalized tables back: each
table row carries a student id and a nullable grade.  The pipeline is
embedded stage by stage:
* `dropnaSum` is `df_sum.dropna(subset=["research_id", "Grade"])`;
* `tagRows`/`formativeRows` build the concatenated formative frame with
  its `Test` tag column, rows with a null grade dropped
  (`df_formative.dropna`);
* `attendedRows` is `df_formative[df_formative["Grade"] > 0]`;
* `attemptCount` is the `groupby("research_id").size()` of the attended
  rows, read through the left merge with `fillna(0)`;
* `lowestFormative` is `df_attended.sort_values(["research_id", "Grade",
  "Test"]).groupby("research_id").first()`: the first row of a student's
  group in the frame sorted by (research_id, Grade, Test);
* `sumAverage` is `df_sum["Grade"].mean()`;
* the result keeps the below-average summative rows sorted ascending by
  grade, merged with attempts and weakest-formative data, filtered to
  `Attempts >= 3`. -/

/-- A row of a normalized table as the analyzer reads it: a student id and
a nullable grade. -/
structure SumRow : Type where
  research_id : String
  grade : Option ℤ
  deriving DecidableEq

/-- A summative row after `dropna`: its grade is present. -/
structure SRow : Type where
  research_id : String
  grade : ℤ
  deriving DecidableEq

/-- A formative row after tagging and `dropna`: id, grade, source table. -/
structure ARow : Type where
  research_id : String
  grade : ℤ
  test : String
  deriving DecidableEq

/-- Embedding of `df_sum.dropna(subset=["research_id", "Grade"])` (underperformingStudent.py
line 22): keep the rows whose grade is present. -/
def dropnaSum (rows : List SumRow) : List SRow :=
  rows.filterMap (fun r => (r.grade).map (fun g => SRow.mk r.research_id g))

/-- Tag every row of one formative table with its table name (`df["Test"] =
table`, underperformingStudent.py line 30) and drop null grades (the
`df_formative.dropna` of line 34, commuted past the concatenation). -/
def tagRows (name : String) (rows : List SumRow) : List ARow :=
  rows.filterMap (fun r => (r.grade).map (fun g => ARow.mk r.research_id g name))

/-- The concatenated formative frame (underperformingStudent.py lines
25–34): Test_1..Test_4 and Mock_Test in that order, null grades dropped. -/
def formativeRows (t1 t2 t3 t4 tm : List SumRow) : List ARow :=
  tagRows ("Test_1") t1 ++ tagRows ("Test_2") t2 ++ tagRows ("Test_3") t3 ++
    tagRows ("Test_4") t4 ++ tagRows ("Mock_Test") tm

/-- Embedding of `df_formative[df_formative["Grade"] > 0]` (underperformingStudent.py
lines 37 and 40): the attempted rows. -/
def attendedRows (t1 t2 t3 t4 tm : List SumRow) : List ARow :=
  (formativeRows t1 t2 t3 t4 tm).filter (fun r => decide (0 < r.grade))

/-- A student's attempt count: the size of their group of attended rows
(underperformingStudent.py line 37), `0` when the left merge finds no
group (the `fillna(0)` of line 55). -/
def attemptCount (t1 t2 t3 t4 tm : List SumRow) (id : String) : ℕ :=
  (attendedRows t1 t2 t3 t4 tm).countP (fun r => decide (r.research_id = id))

/-- Strict lexicographic comparison of two character lists by code point
(Python's `<` on strings, as pandas sorts object columns). -/
def strLtList : List Char → List Char → Bool
  | [], [] => false
  | [], _ :: _ => true
  | _ :: _, [] => false
  | c :: cs, d :: ds =>
    if c.toNat < d.toNat then true
    else if d.toNat < c.toNat then false
    else strLtList cs ds

/-- Non-strict lexicographic comparison of two character lists. -/
def strLeList : List Char → List Char → Bool
  | [], _ => true
  | _ :: _, [] => false
  | c :: cs, d :: ds =>
    if c.toNat < d.toNat then true
    else if d.toNat < c.toNat then false
    else strLeList cs ds

/-- Strict lexicographic order by code point on strings. -/
def strLt (a b : String) : Prop := strLtList a.data b.data = true

/-- Lexicographic order by code point on strings. -/
def strLe (a b : String) : Prop := strLeList a.data b.data = true

instance : DecidableRel strLt := fun a b => by
  unfold strLt
  infer_instance

instance : DecidableRel strLe := fun a b => by
  unfold strLe
  infer_instance

lemma char_eq_of_toNat_eq {c d : Char} (h : c.toNat = d.toNat) : c = d :=
  Char.eq_of_val_eq (UInt32.toNat.inj h)

lemma strLtList_irrefl : ∀ l, strLtList l l = false
  | [] => rfl
  | c :: cs => by
    simp only [strLtList, lt_irrefl, if_neg (lt_irrefl c.toNat), if_false]
    exact strLtList_irrefl cs

lemma strLtList_trans : ∀ l1 l2 l3, strLtList l1 l2 = true → strLtList l2 l3 = true →
    strLtList l1 l3 = true := by
  intro l1
  induction l1 with
  | nil =>
    intro l2 l3 h12 h23
    cases l2 with
    | nil => simp [strLtList] at h12
    | cons d ds =>
      cases l3 with
      | nil => simp [strLtList] at h23
      | cons e es => simp [strLtList]
  | cons c cs ih =>
    intro l2 l3 h12 h23
    cases l2 with
    | nil => simp [strLtList] at h12
    | cons d ds =>
      cases l3 with
      | nil => simp [strLtList] at h23
      | cons e es =>
        simp only [strLtList] at h12 h23 ⊢
        by_cases hcd : c.toNat < d.toNat
        · by_cases hde : d.toNat < e.toNat
          · rw [if_pos (by omega)]
          · rw [if_neg hde] at h23
            by_cases hed : e.toNat < d.toNat
            · rw [if_pos hed] at h23
              cases h23
            · rw [if_pos (by omega)]
        · rw [if_neg hcd] at h12
          by_cases hdc : d.toNat < c.toNat
          · rw [if_pos hdc] at h12
            cases h12
          · rw [if_neg hdc] at h12
            by_cases hde : d.toNat < e.toNat
            · rw [if_pos (by omega)]
            · rw [if_neg hde] at h23
              by_cases hed : e.toNat < d.toNat
              · rw [if_pos hed] at h23
                cases h23
              · rw [if_neg hed] at h23
                rw [if_neg (by omega), if_neg (by omega)]
                exact ih ds es h12 h23

lemma strLtList_trichot : ∀ l1 l2, strLtList l1 l2 = true ∨ l1 = l2 ∨ strLtList l2 l1 = true := by
  intro l1
  induction l1 with
  | nil =>
    intro l2
    cases l2 with
    | nil => exact Or.inr (Or.inl rfl)
    | cons d ds => exact Or.inl rfl
  | cons c cs ih =>
    intro l2
    cases l2 with
    | nil => exact Or.inr (Or.inr rfl)
    | cons d ds =>
      by_cases hcd : c.toNat < d.toNat
      · refine Or.inl ?_
        simp only [strLtList]
        rw [if_pos hcd]
      · by_cases hdc : d.toNat < c.toNat
        · refine Or.inr (Or.inr ?_)
          simp only [strLtList]
          rw [if_pos hdc]
        · have hcdeq : c = d := char_eq_of_toNat_eq (by omega)
          subst hcdeq
          rcases ih ds with h | h | h
          · refine Or.inl ?_
            simp only [strLtList]
            rw [if_neg hcd, if_neg hcd]
            exact h
          · exact Or.inr (Or.inl (by rw [h]))
          · refine Or.inr (Or.inr ?_)
            simp only [strLtList]
            rw [if_neg hcd, if_neg hcd]
            exact h

lemma strLeList_refl : ∀ l, strLeList l l = true
  | [] => rfl
  | c :: cs => by
    simp only [strLeList, lt_irrefl, if_neg (lt_irrefl c.toNat), if_false]
    exact strLeList_refl cs

lemma strLeList_total : ∀ l1 l2, strLeList l1 l2 = true ∨ strLeList l2 l1 = true := by
  intro l1
  induction l1 with
  | nil => intro l2; exact Or.inl rfl
  | cons c cs ih =>
    intro l2
    cases l2 with
    | nil => exact Or.inr rfl
    | cons d ds =>
      simp only [strLeList]
      by_cases hcd : c.toNat < d.toNat
      · refine Or.inl ?_
        rw [if_pos hcd]
      · by_cases hdc : d.toNat < c.toNat
        · refine Or.inr ?_
          rw [if_pos hdc]
        · rcases ih ds with h | h
          · refine Or.inl ?_
            rw [if_neg hcd, if_neg hdc]
            exact h
          · refine Or.inr ?_
            rw [if_neg hdc, if_neg hcd]
            exact h

lemma strLeList_trans : ∀ l1 l2 l3, strLeList l1 l2 = true → strLeList l2 l3 = true →
    strLeList l1 l3 = true := by
  intro l1
  induction l1 with
  | nil => intro l2 l3 h12 h23; rfl
  | cons c cs ih =>
    intro l2 l3 h12 h23
    cases l2 with
    | nil => simp [strLeList] at h12
    | cons d ds =>
      cases l3 with
      | nil => simp [strLeList] at h23
      | cons e es =>
        simp only [strLeList] at h12 h23 ⊢
        by_cases hcd : c.toNat < d.toNat
        · by_cases hde : d.toNat < e.toNat
          · rw [if_pos (by omega)]
          · rw [if_neg hde] at h23
            by_cases hed : e.toNat < d.toNat
            · rw [if_pos hed] at h23
              cases h23
            · rw [if_pos (by omega)]
        · rw [if_neg hcd] at h12
          by_cases hdc : d.toNat < c.toNat
          · rw [if_pos hdc] at h12
            cases h12
          · rw [if_neg hdc] at h12
            by_cases hde : d.toNat < e.toNat
            · rw [if_pos (by omega)]
            · rw [if_neg hde] at h23
              by_cases hed : e.toNat < d.toNat
              · rw [if_pos hed] at h23
                cases h23
              · rw [if_neg hed] at h23
                rw [if_neg (by omega), if_neg (by omega)]
                exact ih ds es h12 h23

lemma strLt_trichotomy (a b : String) : strLt a b ∨ a = b ∨ strLt b a := by
  rcases strLtList_trichot a.data b.data with h | h | h
  · exact Or.inl h
  · refine Or.inr (Or.inl ?_)
    cases a
    cases b
    simp only at h
    rw [h]
  · exact Or.inr (Or.inr h)

lemma strLt_irrefl (a : String) : ¬ strLt a a := by
  unfold strLt
  rw [strLtList_irrefl]
  simp

lemma strLe_refl (a : String) : strLe a a := strLeList_refl a.data

lemma strLe_total (a b : String) : strLe a b ∨ strLe b a := strLeList_total a.data b.data

lemma strLe_trans {a b c : String} (h1 : strLe a b) (h2 : strLe b c) : strLe a c :=
  strLeList_trans a.data b.data c.data h1 h2

lemma strLt_trans {a b c : String} (h1 : strLt a b) (h2 : strLt b c) : strLt a c :=
  strLtList_trans a.data b.data c.data h1 h2

/-- The sort key of `sort_values(["research_id", "Grade", "Test"])`
(underperformingStudent.py line 41): lexicographic on id, then grade,
then test name (string comparison is lexicographic by code point). -/
def lowOrder (a b : ARow) : Prop :=
  strLt a.research_id b.research_id ∨ (a.research_id = b.research_id ∧
    (a.grade < b.grade ∨ (a.grade = b.grade ∧ strLe a.test b.test)))

instance : DecidableRel lowOrder := fun a b => by
  unfold lowOrder
  infer_instance

instance : IsTotal ARow lowOrder := by
  constructor
  intro a b
  rcases strLt_trichotomy a.research_id b.research_id with h | h | h
  · exact Or.inl (Or.inl h)
  · rcases lt_trichotomy a.grade b.grade with h2 | h2 | h2
    · exact Or.inl (Or.inr ⟨h, Or.inl h2⟩)
    · rcases strLe_total a.test b.test with h3 | h3
      · exact Or.inl (Or.inr ⟨h, Or.inr ⟨h2, h3⟩⟩)
      · exact Or.inr (Or.inr ⟨h.symm, Or.inr ⟨h2.symm, h3⟩⟩)
    · exact Or.inr (Or.inr ⟨h.symm, Or.inl h2⟩)
  · exact Or.inr (Or.inl h)

instance : IsTrans ARow lowOrder := by
  constructor
  intro a b c hab hbc
  rcases hab with h1 | ⟨h1, h1g⟩
  · rcases hbc with h2 | ⟨h2, _⟩
    · exact Or.inl (strLt_trans h1 h2)
    · exact Or.inl (h2 ▸ h1)
  · rcases hbc with h2 | ⟨h2, h2g⟩
    · exact Or.inl (h1 ▸ h2)
    · refine Or.inr ⟨h1.trans h2, ?_⟩
      rcases h1g with hg1 | ⟨hg1, ht1⟩
      · rcases h2g with hg2 | ⟨hg2, _⟩
        · exact Or.inl (lt_trans hg1 hg2)
        · exact Or.inl (hg2 ▸ hg1)
      · rcases h2g with hg2 | ⟨hg2, ht2⟩
        · exact Or.inl (hg1 ▸ hg2)
        · exact Or.inr ⟨hg1.trans hg2, strLe_trans ht1 ht2⟩

/-- The attended rows sorted by (research_id, Grade, Test)
(underperformingStudent.py line 41; `sort_values` is modelled by the
stable `insertionSort`). -/
def sortedAttended (t1 t2 t3 t4 tm : List SumRow) : List ARow :=
  List.insertionSort lowOrder (attendedRows t1 t2 t3 t4 tm)

/-- A student's weakest formative record — grade and test name of the first
row of their group in the sorted attended frame
(`groupby("research_id").first()`, underperformingStudent.py lines 41–42);
`none` when the student has no attended row (the left merge of line 52
leaves the columns null). -/
def lowestFormative (t1 t2 t3 t4 tm : List SumRow) (id : String) : Option (ℤ × String) :=
  (((sortedAttended t1 t2 t3 t4 tm).filter
      (fun r => decide (r.research_id = id))).head?).map (fun r => (r.grade, r.test))

/-- Embedding of `df_sum["Grade"].mean()` (underperformingStudent.py line 45): the
arithmetic mean of the non-null summative grades. -/
def sumAverage (sumRows : List SumRow) : ℚ :=
  ((((dropnaSum sumRows).map (fun r => r.grade)).sum : ℤ) : ℚ) /
    (((dropnaSum sumRows).length : ℕ) : ℚ)

/-- The candidate rows: `df_sum[df_sum["Grade"] < sum_average]`
(underperformingStudent.py line 46). -/
def underCandidates (sumRows : List SumRow) : List SRow :=
  (dropnaSum sumRows).filter (fun r => decide ((r.grade : ℚ) < sumAverage sumRows))

/-- The ascending sort key of `sort_values(by="Grade")`
(underperformingStudent.py line 47). -/
def underOrder (a b : SRow) : Prop := a.grade ≤ b.grade

instance : DecidableRel underOrder := fun a b => by
  unfold underOrder
  infer_instance

instance : IsTotal SRow underOrder := ⟨fun a b => le_total a.grade b.grade⟩

instance : IsTrans SRow underOrder := ⟨fun _ _ _ h1 h2 => le_trans h1 h2⟩

/-- A row of the final underperformance report (underperformingStudent.py
line 64): id, summative grade, attempt count, weakest formative record. -/
structure ResultRow : Type where
  research_id : String
  summative_grade : ℤ
  attempts : ℕ
  lowest : Option (ℤ × String)
  deriving DecidableEq

/-- Embedding of `find_underperforming_students`
(underperformingStudent.py lines 17–65): candidates sorted ascending by
summative grade, merged with their attempt count and weakest formative
record, filtered to at least 3 attempts. -/
def find_underperforming_students (sumRows t1 t2 t3 t4 tm : List SumRow) : List ResultRow :=
  ((List.insertionSort underOrder (underCandidates sumRows)).map (fun u =>
      ResultRow.mk u.research_id u.grade (attemptCount t1 t2 t3 t4 tm u.research_id)
        (lowestFormative t1 t2 t3 t4 tm u.research_id))).filter
    (fun r => decide (3 ≤ r.attempts))

/-- Claim C3: a student appears in the underperformance result iff some
summative row of theirs has a non-null grade strictly below the mean of
the non-null summative grades AND they have at least 3 attempts (attended
formative rows, i.e. rows with grade > 0). -/
theorem underperforming_membership_spec (sumRows t1 t2 t3 t4 tm : List SumRow) (id : String) :
    (∃ r ∈ find_underperforming_students sumRows t1 t2 t3 t4 tm, r.research_id = id) ↔
      ((∃ row ∈ sumRows, row.research_id = id ∧ ∃ g : ℤ, row.grade = some g ∧
          (g : ℚ) < sumAverage sumRows) ∧
        3 ≤ attemptCount t1 t2 t3 t4 tm id) := by
  unfold find_underperforming_students
  constructor
  · rintro ⟨r, hr, hid⟩
    rw [List.mem_filter] at hr
    obtain ⟨hmem, hatt⟩ := hr
    rw [List.mem_map] at hmem
    obtain ⟨u, hu, rfl⟩ := hmem
    rw [decide_eq_true_eq] at hatt
    simp only at hid hatt
    subst hid
    rw [List.mem_insertionSort] at hu
    unfold underCandidates at hu
    rw [List.mem_filter, decide_eq_true_eq] at hu
    obtain ⟨husum, hulaw⟩ := hu
    unfold dropnaSum at husum
    rw [List.mem_filterMap] at husum
    obtain ⟨row, hrow, hmap⟩ := husum
    rw [Option.map_eq_some'] at hmap
    obtain ⟨g, hg, hmk⟩ := hmap
    refine ⟨⟨row, hrow, ?_, g, hg, ?_⟩, hatt⟩
    · have : (SRow.mk row.research_id g).research_id = u.research_id := by rw [hmk]
      simpa using this
    · have : (SRow.mk row.research_id g).grade = u.grade := by rw [hmk]
      simp only at this
      rw [this]
      exact hulaw
  · rintro ⟨⟨row, hrow, hid, g, hg, hlaw⟩, hatt⟩
    refine ⟨ResultRow.mk id g (attemptCount t1 t2 t3 t4 tm id)
      (lowestFormative t1 t2 t3 t4 tm id), ?_, rfl⟩
    rw [List.mem_filter]
    constructor
    · rw [List.mem_map]
      refine ⟨SRow.mk id g, ?_, rfl⟩
      rw [List.mem_insertionSort]
      unfold underCandidates
      rw [List.mem_filter, decide_eq_true_eq]
      constructor
      · unfold dropnaSum
        rw [List.mem_filterMap]
        exact ⟨row, hrow, by rw [hg, hid]; rfl⟩
      · exact hlaw
    · rw [decide_eq_true_eq]
      exact hatt

lemma lowestFormative_head (t1 t2 t3 t4 tm : List SumRow) (id : String)
    (h : ∃ x ∈ attendedRows t1 t2 t3 t4 tm, x.research_id = id) :
    ∃ y ∈ attendedRows t1 t2 t3 t4 tm, y.research_id = id ∧
      lowestFormative t1 t2 t3 t4 tm id = some (y.grade, y.test) ∧
      ∀ x ∈ attendedRows t1 t2 t3 t4 tm, x.research_id = id → lowOrder y x := by
  obtain ⟨x, hx, hxid⟩ := h
  have hxL : x ∈ sortedAttended t1 t2 t3 t4 tm := by
    unfold sortedAttended
    rw [List.mem_insertionSort]
    exact hx
  have hxF : x ∈ (sortedAttended t1 t2 t3 t4 tm).filter
      (fun r => decide (r.research_id = id)) :=
    List.mem_filter.mpr ⟨hxL, by rw [decide_eq_true_eq]; exact hxid⟩
  cases hFe : (sortedAttended t1 t2 t3 t4 tm).filter (fun r => decide (r.research_id = id)) with
  | nil =>
    rw [hFe] at hxF
    cases hxF
  | cons y rest =>
    have hyF : y ∈ (sortedAttended t1 t2 t3 t4 tm).filter
        (fun r => decide (r.research_id = id)) := by
      rw [hFe]
      exact List.mem_cons_self y rest
    have hyL : y ∈ sortedAttended t1 t2 t3 t4 tm := (List.mem_filter.mp hyF).1
    have hyid : y.research_id = id := by
      have h2 := (List.mem_filter.mp hyF).2
      rwa [decide_eq_true_eq] at h2
    have hyA : y ∈ attendedRows t1 t2 t3 t4 tm := by
      unfold sortedAttended at hyL
      rwa [List.mem_insertionSort] at hyL
    have hsF : List.Sorted lowOrder ((sortedAttended t1 t2 t3 t4 tm).filter
        (fun r => decide (r.research_id = id))) :=
      List.Sorted.filter _ (List.sorted_insertionSort lowOrder (attendedRows t1 t2 t3 t4 tm))
    refine ⟨y, hyA, hyid, ?_, ?_⟩
    · unfold lowestFormative
      rw [hFe]
      rfl
    · intro z hz hzid
      have hzF : z ∈ (sortedAttended t1 t2 t3 t4 tm).filter
          (fun r => decide (r.research_id = id)) := by
        refine List.mem_filter.mpr ⟨?_, by rw [decide_eq_true_eq]; exact hzid⟩
        unfold sortedAttended
        rw [List.mem_insertionSort]
        exact hz
      rw [hFe] at hzF
      rcases List.mem_cons.mp hzF with heq | hzr
      · subst heq
        exact Or.inr ⟨rfl, Or.inr ⟨rfl, strLe_refl _⟩⟩
      · rw [hFe] at hsF
        exact List.rel_of_sorted_cons hsF z hzr

/-- Claim C4: for every student with at least one attended formative row
(grade > 0), the reported weakest formative result is a row of theirs of
minimum grade, and among equal-lowest grades the alphabetically earliest
test name — the first row of the student's group after sorting by
(research_id, Grade, Test). -/
theorem lowest_formative_spec (t1 t2 t3 t4 tm : List SumRow) (id : String)
    (h : ∃ x ∈ attendedRows t1 t2 t3 t4 tm, x.research_id = id) :
    ∃ g t, lowestFormative t1 t2 t3 t4 tm id = some (g, t) ∧
      (∃ x ∈ attendedRows t1 t2 t3 t4 tm, x.research_id = id ∧ x.grade = g ∧ x.test = t) ∧
      ∀ x ∈ attendedRows t1 t2 t3 t4 tm, x.research_id = id →
        g < x.grade ∨ (g = x.grade ∧ strLe t x.test) := by
  obtain ⟨y, hyA, hyid, heq, hmin⟩ := lowestFormative_head t1 t2 t3 t4 tm id h
  refine ⟨y.grade, y.test, heq, ⟨y, hyA, hyid, rfl, rfl⟩, ?_⟩
  intro x hx hxid
  have hord := hmin x hx hxid
  unfold lowOrder at hord
  rcases hord with hlt | ⟨_, hg⟩
  · rw [hyid, hxid] at hlt
    exact absurd hlt (strLt_irrefl _)
  · exact hg

/-- Witness for claim C4's theorem, at the spec's own tie-break example:
student S1 has grade 20 in both Test_2 and Test_1; the reported weakest
test is Test_1. -/
theorem lowest_formative_spec_witness :
    (∃ x ∈ attendedRows [SumRow.mk ("S1") (some 20)] [SumRow.mk ("S1") (some 20)] [] [] [],
        x.research_id = ("S1")) ∧
      lowestFormative [SumRow.mk ("S1") (some 20)] [SumRow.mk ("S1") (some 20)] [] [] []
          ("S1") = some (20, ("Test_1")) ∧
      (∃ g t, lowestFormative [SumRow.mk ("S1") (some 20)] [SumRow.mk ("S1") (some 20)]
            [] [] [] ("S1") = some (g, t) ∧
        (∃ x ∈ attendedRows [SumRow.mk ("S1") (some 20)] [SumRow.mk ("S1") (some 20)] [] [] [],
          x.research_id = ("S1") ∧ x.grade = g ∧ x.test = t) ∧
        ∀ x ∈ attendedRows [SumRow.mk ("S1") (some 20)] [SumRow.mk ("S1") (some 20)] [] [] [],
          x.research_id = ("S1") → g < x.grade ∨ (g = x.grade ∧ strLe t x.test)) :=
  ⟨by decide, by decide,
    lowest_formative_spec [SumRow.mk ("S1") (some 20)] [SumRow.mk ("S1") (some 20)] [] [] []
      ("S1") (by decide)⟩

/-- Claim C10: every row of the underperformance result has a present
(non-null) weakest-formative record whose grade is strictly positive:
passing the `Attempts >= 3` filter guarantees an attended row, hence a
matching group in the left join. -/
theorem result_lowest_positive_spec (sumRows t1 t2 t3 t4 tm : List SumRow) (r : ResultRow)
    (hr : r ∈ find_underperforming_students sumRows t1 t2 t3 t4 tm) :
    ∃ g t, r.lowest = some (g, t) ∧ 0 < g := by
  unfold find_underperforming_students at hr
  rw [List.mem_filter] at hr
  obtain ⟨hmem, hatt⟩ := hr
  rw [List.mem_map] at hmem
  obtain ⟨u, hu, rfl⟩ := hmem
  rw [decide_eq_true_eq] at hatt
  simp only at hatt
  have hpos : 0 < (attendedRows t1 t2 t3 t4 tm).countP
      (fun x => decide (x.research_id = u.research_id)) := by
    unfold attemptCount at hatt
    omega
  rw [List.countP_pos_iff] at hpos
  obtain ⟨x, hx, hxid⟩ := hpos
  rw [decide_eq_true_eq] at hxid
  obtain ⟨y, hyA, hyid, heq, hmin⟩ :=
    lowestFormative_head t1 t2 t3 t4 tm u.research_id ⟨x, hx, hxid⟩
  refine ⟨y.grade, y.test, heq, ?_⟩
  unfold attendedRows at hyA
  rw [List.mem_filter, decide_eq_true_eq] at hyA
  exact hyA.2

/-- Witness for claim C10's theorem: a concrete run whose result contains
student S1 with 3 attempts; the reported row's weakest-formative record is
present and positive. -/
theorem result_lowest_positive_spec_witness :
    (ResultRow.mk ("S1") 10 3 (some (20, ("Test_1"))) ∈
        find_underperforming_students [SumRow.mk ("S1") (some 10), SumRow.mk ("S2") (some 100)]
          [SumRow.mk ("S1") (some 20)] [SumRow.mk ("S1") (some 30)]
          [SumRow.mk ("S1") (some 40)] [] []) ∧
      (∃ g t, (ResultRow.mk ("S1") 10 3 (some (20, ("Test_1")))).lowest = some (g, t) ∧ 0 < g) := by
  have havg : sumAverage [SumRow.mk ("S1") (some 10), SumRow.mk ("S2") (some 100)] = 55 := by
    have hd : dropnaSum [SumRow.mk ("S1") (some 10), SumRow.mk ("S2") (some 100)] =
        [SRow.mk ("S1") 10, SRow.mk ("S2") 100] := by decide
    unfold sumAverage
    rw [hd]
    norm_num
  have hunder : underCandidates [SumRow.mk ("S1") (some 10), SumRow.mk ("S2") (some 100)] =
      [SRow.mk ("S1") 10] := by
    unfold underCandidates
    simp only [havg]
    decide
  have hfind : find_underperforming_students
      [SumRow.mk ("S1") (some 10), SumRow.mk ("S2") (some 100)] [SumRow.mk ("S1") (some 20)]
      [SumRow.mk ("S1") (some 30)] [SumRow.mk ("S1") (some 40)] [] [] =
      [ResultRow.mk ("S1") 10 3 (some (20, ("Test_1")))] := by
    unfold find_underperforming_students
    rw [hunder]
    decide
  have hmem : ResultRow.mk ("S1") 10 3 (some (20, ("Test_1"))) ∈
      find_underperforming_students [SumRow.mk ("S1") (some 10), SumRow.mk ("S2") (some 100)]
        [SumRow.mk ("S1") (some 20)] [SumRow.mk ("S1") (some 30)]
        [SumRow.mk ("S1") (some 40)] [] [] := by
    rw [hfind]
    exact List.mem_cons_self _ _
  exact ⟨hmem,
    result_lowest_positive_spec [SumRow.mk ("S1") (some 10), SumRow.mk ("S2") (some 100)]
      [SumRow.mk ("S1") (some 20)] [SumRow.mk ("S1") (some 30)] [SumRow.mk ("S1") (some 40)]
      [] [] (ResultRow.mk ("S1") 10 3 (some (20, ("Test_1")))) hmem⟩

/-! ## Single-student performance comparison (studentPerformance.py)

`student_performance` loads one assessment table, looks up the student's
row by `research_id`; if absent it reports "not found" and stops.
Otherwise it takes every column whose label starts with `Q`, reads the
student's absolute scores from their (first) row, computes each column's
cohort mean (pandas `mean()` skips nulls), and the relative scores
(absolute minus mean, null-propagating). -/

/-- An assessment table as `student_performance` reads it: the column
labels in order, and the rows — a `research_id` and the row's cells keyed
by column label (a missing/NaN cell is `none`). -/
structure PTable : Type where
  cols : List String
  rows : List (String × List (String × Option ℚ))
  deriving DecidableEq

/-- The outcome of `student_performance`: the not-found report (the early
return at studentPerformance.py lines 30–33, which carries no data and
does no further computation), or the absolute and relative score vectors
keyed by item label. -/
inductive PerfResult : Type
  | notFound
  | found (absolute relative : List (String × Option ℚ))
  deriving DecidableEq

/-- A row's cell in a given column (`none` when the column is absent from
the row or the cell is null). -/
def cellValue (row : String × List (String × Option ℚ)) (c : String) : Option ℚ :=
  (row.2.lookup c).join

/-- Embedding of `col.startswith("Q")` (studentPerformance.py line 36). -/
def startsWithQ (c : String) : Bool :=
  match c.data with
  | [] => false
  | ch :: _ => ch = 'Q'

/-- The question columns of the table: those whose label starts with `Q`
(studentPerformance.py line 36). -/
def questionCols (t : PTable) : List String :=
  t.cols.filter startsWithQ

/-- One column's cells across all rows of the table. -/
def colCells (t : PTable) (c : String) : List (Option ℚ) :=
  t.rows.map (fun r => cellValue r c)

/-- One column's present (non-null) values across all rows. -/
def colVals (t : PTable) (c : String) : List ℚ :=
  (colCells t c).filterMap id

/-- Embedding of `df_test[question_cols].mean()` for one column (studentPerformance.py
line 39): the mean of the non-null values, `none` when every value is
null (pandas' NaN mean). -/
def colMean (t : PTable) (c : String) : Option ℚ :=
  if (colVals t c).isEmpty then none
  else some ((colVals t c).sum / ((colVals t c).length : ℚ))

/-- Null-propagating subtraction (`absolute_scores - average_scores`,
studentPerformance.py line 40). -/
def optSub (a b : Option ℚ) : Option ℚ :=
  match a, b with
  | some x, some y => some (x - y)
  | _, _ => none

/-- Embedding of `student_performance` (studentPerformance.py lines
17–64): filter the table to the student's rows; if none, report not-found
and stop; otherwise build the absolute scores of the first matching row
and the relative scores against each question column's cohort mean. -/
def student_performance (t : PTable) (student_id : String) : PerfResult :=
  match (t.rows.filter (fun r => decide (r.1 = student_id))) with
  | [] => PerfResult.notFound
  | r :: _ =>
    PerfResult.found
      ((questionCols t).map (fun c => (c, cellValue r c)))
      ((questionCols t).map (fun c => (c, optSub (cellValue r c) (colMean t c))))

/-- Claim C8: the lookup of an absent `research_id` (the spec's
`student_id`) yields the not-found outcome — which carries no further
output — and it does so exactly when no row has that id; otherwise the
result lists, for every column whose label starts with `Q`, the first
matching row's absolute score and the relative score, i.e. the absolute
score minus the column's cohort mean over the non-null values. -/
theorem student_performance_spec (t : PTable) (sid : String) :
    (student_performance t sid = PerfResult.notFound ↔ ∀ r ∈ t.rows, r.1 ≠ sid) ∧
      (∀ absolute relative, student_performance t sid = PerfResult.found absolute relative →
        ∃ r, (t.rows.filter (fun x => decide (x.1 = sid))).head? = some r ∧ r.1 = sid ∧
          r ∈ t.rows ∧
          absolute = (questionCols t).map (fun c => (c, cellValue r c)) ∧
          relative = (questionCols t).map (fun c => (c, optSub (cellValue r c) (colMean t c)))) ∧
      (∀ c m, colMean t c = some m →
        (colVals t c) ≠ [] ∧ m * ((colVals t c).length : ℚ) = (colVals t c).sum) := by
  refine ⟨?_, ?_, ?_⟩
  · unfold student_performance
    cases hf : t.rows.filter (fun r => decide (r.1 = sid)) with
    | nil =>
      simp only
      constructor
      · intro _ r hr hid
        have : r ∈ t.rows.filter (fun x => decide (x.1 = sid)) :=
          List.mem_filter.mpr ⟨hr, by rw [decide_eq_true_eq]; exact hid⟩
        rw [hf] at this
        cases this
      · intro _
        trivial
    | cons r rest =>
      simp only
      constructor
      · intro h
        cases h
      · intro hall
        have hrf : r ∈ t.rows.filter (fun x => decide (x.1 = sid)) := by
          rw [hf]
          exact List.mem_cons_self r rest
        have := List.mem_filter.mp hrf
        rw [decide_eq_true_eq] at this
        exact absurd this.2 (hall r this.1)
  · intro absolute relative h
    unfold student_performance at h
    cases hf : t.rows.filter (fun r => decide (r.1 = sid)) with
    | nil =>
      rw [hf] at h
      cases h
    | cons r rest =>
      rw [hf] at h
      injection h with h1 h2
      refine ⟨r, rfl, ?_, ?_, h1.symm, h2.symm⟩
      · have hrf : r ∈ t.rows.filter (fun x => decide (x.1 = sid)) := by
          rw [hf]
          exact List.mem_cons_self r rest
        have := (List.mem_filter.mp hrf).2
        rwa [decide_eq_true_eq] at this
      · have hrf : r ∈ t.rows.filter (fun x => decide (x.1 = sid)) := by
          rw [hf]
          exact List.mem_cons_self r rest
        exact (List.mem_filter.mp hrf).1
  · intro c m hm
    unfold colMean at hm
    by_cases he : (colVals t c).isEmpty
    · rw [if_pos he] at hm
      cases hm
    · rw [if_neg he] at hm
      injection hm with hm
      have hne : colVals t c ≠ [] := by
        intro hnil
        rw [hnil] at he
        exact he rfl
      refine ⟨hne, ?_⟩
      have hlen : ((colVals t c).length : ℚ) ≠ 0 := by
        have : (colVals t c).length ≠ 0 := fun h0 => hne (List.eq_nil_of_length_eq_zero h0)
        exact_mod_cast this
      rw [← hm]
      field_simp

/-! ## Connection lifetime (run, find_underperforming_students, student_performance)

Each entry point opens `sqlite3.connect(db_path)` and ends with
`conn.close()`.  None of the three functions uses `try/finally` or a
`with` block: `conn.close()` runs only on the paths that reach it.  The
traced variants below record, next to the call's outcome, whether the
connection was closed before the call ended; a step that raises
(a `KeyError` from `check_required_columns`, a failed `read_sql_query`)
propagates out of the function body without reaching any `close()` call. -/

/-- A call's outcome together with whether the store handle opened by the
call was closed before the call ended. -/
structure Traced (α : Type) : Type where
  result : α
  connClosed : Bool
  deriving DecidableEq

/-- Embedding of `CWPreprocessor.run` (CWPreprocessing.py lines 323–336) with its
connection tracked: `conn.close()` (line 335) runs only after all seven
writes succeed; an exception in any preprocessing step propagates before
it. -/
def run_traced {α : Type} (store : Store α)
    (steps : List (String × Except SchemaErr α)) : Traced (Store α × Option SchemaErr) :=
  Traced.mk (runSteps store steps) ((runSteps store steps).2).isNone

/-- Embedding of `find_underperforming_students` (underperformingStudent.py lines
17–88) with its table reads and connection tracked: a failed
`read_sql_query` of the summative or a formative table propagates before
any `conn.close()`; both the empty-result early return (lines 58–61) and
the normal path (line 88) close the connection. -/
def find_underperforming_students_traced
    (sumE t1E t2E t3E t4E tmE : Except String (List SumRow)) :
    Traced (Except String (List ResultRow)) :=
  match sumE with
  | Except.error e => Traced.mk (Except.error e) false
  | Except.ok s =>
    match t1E with
    | Except.error e => Traced.mk (Except.error e) false
    | Except.ok a =>
      match t2E with
      | Except.error e => Traced.mk (Except.error e) false
      | Except.ok b =>
        match t3E with
        | Except.error e => Traced.mk (Except.error e) false
        | Except.ok c =>
          match t4E with
          | Except.error e => Traced.mk (Except.error e) false
          | Except.ok d =>
            match tmE with
            | Except.error e => Traced.mk (Except.error e) false
            | Except.ok m =>
              Traced.mk (Except.ok (find_underperforming_students s a b c d m)) true

/-- Embedding of `student_performance` (studentPerformance.py lines 17–64) with its
table read and connection tracked: a failed `read_sql_query` (an unknown
table name) propagates before any `conn.close()`; the not-found early
return (lines 30–33) and the normal path (line 64) both close. -/
def student_performance_traced (tE : Except String PTable) (sid : String) :
    Traced (Except String PerfResult) :=
  match tE with
  | Except.error e => Traced.mk (Except.error e) false
  | Except.ok t => Traced.mk (Except.ok (student_performance t sid)) true

/-- Counterexample to claim C9 as stated: a pipeline run whose first
preprocessing step raises a schema error is an exit path on which the
connection is NOT closed before the call ends (there is no `try/finally`
around the writes in `run`). -/
theorem connection_closed_cex :
    (run_traced ([] : Store ℕ)
        [(("Test_1"), Except.error ((("Test_1"), [("Grade")]) : SchemaErr))]).connClosed =
      false :=
  rfl

/-- Claim C9 amended: the store handle is closed before the call ends on
normal completion and on the not-found/empty-result early returns — for a
pipeline run, exactly when no step raised; for the analyses, exactly when
every table read succeeded — but NOT on the error paths (a schema error
during a run, a failed table read), where the exception propagates before
any close. -/
theorem connection_closed_spec :
    (∀ (α : Type) (store : Store α) (steps : List (String × Except SchemaErr α)),
        (run_traced store steps).connClosed = true ↔ (runSteps store steps).2 = none) ∧
      (∀ sumE t1E t2E t3E t4E tmE : Except String (List SumRow),
        (find_underperforming_students_traced sumE t1E t2E t3E t4E tmE).connClosed = true ↔
          (sumE.isOk ∧ t1E.isOk ∧ t2E.isOk ∧ t3E.isOk ∧ t4E.isOk ∧ tmE.isOk)) ∧
      (∀ (tE : Except String PTable) (sid : String),
        (student_performance_traced tE sid).connClosed = true ↔ tE.isOk) := by
  refine ⟨?_, ?_, ?_⟩
  · intro α store steps
    unfold run_traced
    simp only
    cases h : (runSteps store steps).2 <;> simp [h]
  · intro sumE t1E t2E t3E t4E tmE
    unfold find_underperforming_students_traced
    cases sumE <;> cases t1E <;> cases t2E <;> cases t3E <;> cases t4E <;> cases tmE <;>
      simp [Except.isOk, Except.toBool]
  · intro tE sid
    unfold student_performance_traced
    cases tE <;> simp [Except.isOk, Except.toBool]

/-! ## Deduplication (CWPreprocessing.keep_best_attempt)

`keep_best_attempt` does `df.sort_values("Grade", ascending=False)`, then
`df.drop_duplicates(subset=["research_id"], keep="first")`, then
`df.sort_index()`.  A raw row is modelled with its original positional
index (`idx`, the pandas index that `sort_index` restores), its id and its
grade.  `sort_values` runs pandas' default quicksort, which is not
stable: the program guarantees only that the sorted frame is some
permutation of the rows ordered by descending grade — which of several
rows tying on a grade comes first is implementation-defined.  The
embedding is therefore parametric in the sorted frame:
`IsSortValuesDesc rows sorted` says `sorted` is a legal output of the
sort, and `keep_best_attempt` performs the remaining two steps on it. -/

/-- A raw assessment row as `keep_best_attempt` sees it: original row
position, student id, raw grade. -/
structure TRow : Type where
  idx : ℕ
  research_id : String
  grade : ℤ
  deriving DecidableEq

/-- The key of `sort_values("Grade", ascending=False)`
(CWPreprocessing.py line 72). -/
def gradeDescOrder (a b : TRow) : Prop := b.grade ≤ a.grade

instance : DecidableRel gradeDescOrder := fun a b => by
  unfold gradeDescOrder
  infer_instance

/-- A legal output of `df.sort_values("Grade", ascending=False)`
(CWPreprocessing.py line 72): pandas' default quicksort guarantees only a
permutation of the frame ordered by descending grade — the relative order
of rows tying on grade is implementation-defined, so any such permutation
is a possible sort result. -/
def IsSortValuesDesc (rows sorted : List TRow) : Prop :=
  List.Perm sorted rows ∧ List.Sorted gradeDescOrder sorted

instance (rows sorted : List TRow) : Decidable (IsSortValuesDesc rows sorted) := by
  unfold IsSortValuesDesc
  infer_instance

/-- The key of `sort_index()` (CWPreprocessing.py line 74). -/
def idxOrder (a b : TRow) : Prop := a.idx ≤ b.idx

instance : DecidableRel idxOrder := fun a b => by
  unfold idxOrder
  infer_instance

instance : IsTotal TRow idxOrder := ⟨fun a b => le_total a.idx b.idx⟩

instance : IsTrans TRow idxOrder := ⟨fun _ _ _ h1 h2 => le_trans h1 h2⟩

/-- Embedding of `df.drop_duplicates(subset=["research_id"], keep="first")`
(CWPreprocessing.py line 73): walk the frame in order and keep each row
whose id has not been seen yet. -/
def dropDupFirst : List TRow → List String → List TRow
  | [], _ => []
  | r :: rs, seen =>
    if r.research_id ∈ seen then dropDupFirst rs seen
    else r :: dropDupFirst rs (r.research_id :: seen)

lemma dropDupFirst_cons_mem (r : TRow) (rs : List TRow) (seen : List String)
    (h : r.research_id ∈ seen) :
    dropDupFirst (r :: rs) seen = dropDupFirst rs seen := by
  simp only [dropDupFirst, if_pos h]

lemma dropDupFirst_cons_not_mem (r : TRow) (rs : List TRow) (seen : List String)
    (h : r.research_id ∉ seen) :
    dropDupFirst (r :: rs) seen = r :: dropDupFirst rs (r.research_id :: seen) := by
  simp only [dropDupFirst, if_neg h]

/-- Embedding of `CWPreprocessor.keep_best_attempt` (CWPreprocessing.py
lines 67–75), parametric in the grade-descending sorted frame `sorted`
(any frame with `IsSortValuesDesc rows sorted`): keep the first row per
id of the sorted frame, then restore original row order by sorting on the
index. -/
def keep_best_attempt (sorted : List TRow) : List TRow :=
  List.insertionSort idxOrder (dropDupFirst sorted [])

lemma dropDupFirst_filter (id : String) : ∀ (s : List TRow) (seen : List String),
    (dropDupFirst s seen).filter (fun r => decide (r.research_id = id)) =
      if id ∈ seen then []
      else (s.filter (fun r => decide (r.research_id = id))).take 1 := by
  intro s
  induction s with
  | nil =>
    intro seen
    split_ifs <;> rfl
  | cons r rs ih =>
    intro seen
    by_cases hseen : r.research_id ∈ seen
    · rw [dropDupFirst_cons_mem r rs seen hseen]
      rw [ih seen]
      by_cases hid : id ∈ seen
      · rw [if_pos hid, if_pos hid]
      · rw [if_neg hid, if_neg hid]
        have hne : decide (r.research_id = id) = false := by
          apply decide_eq_false
          intro h
          rw [h] at hseen
          exact hid hseen
        rw [List.filter_cons, hne]
        simp
    · rw [dropDupFirst_cons_not_mem r rs seen hseen]
      by_cases hid : r.research_id = id
      · have hidseen : id ∉ seen := by
          rw [← hid]
          exact hseen
        rw [if_neg hidseen]
        have hd : decide (r.research_id = id) = true := decide_eq_true hid
        rw [List.filter_cons, hd]
        simp only [if_true]
        rw [List.filter_cons, hd]
        simp only [if_true, List.take_succ_cons, List.take_zero]
        rw [ih (r.research_id :: seen), if_pos (by rw [hid]; exact List.mem_cons_self id seen)]
      · have hd : decide (r.research_id = id) = false := decide_eq_false hid
        rw [List.filter_cons, hd]
        simp only [Bool.false_eq_true, if_false]
        rw [List.filter_cons, hd]
        simp only [Bool.false_eq_true, if_false]
        rw [ih (r.research_id :: seen)]
        have : (id ∈ r.research_id :: seen) ↔ (id ∈ seen) := by
          constructor
          · intro h
            rcases List.mem_cons.mp h with h2 | h2
            · exact absurd h2.symm hid
            · exact h2
          · exact fun h => List.mem_cons_of_mem _ h
        by_cases hid2 : id ∈ seen
        · rw [if_pos (this.mpr hid2), if_pos hid2]
        · rw [if_neg (fun h => hid2 (this.mp h)), if_neg hid2]

lemma dropDupFirst_subset : ∀ (s : List TRow) (seen : List String) (x : TRow),
    x ∈ dropDupFirst s seen → x ∈ s := by
  intro s
  induction s with
  | nil =>
    intro seen x hx
    cases hx
  | cons r rs ih =>
    intro seen x hx
    by_cases hseen : r.research_id ∈ seen
    · rw [dropDupFirst_cons_mem r rs seen hseen] at hx
      exact List.mem_cons_of_mem r (ih seen x hx)
    · rw [dropDupFirst_cons_not_mem r rs seen hseen] at hx
      rcases List.mem_cons.mp hx with h | h
      · rw [h]
        exact List.mem_cons_self r rs
      · exact List.mem_cons_of_mem r (ih _ x h)

lemma dropDupFirst_ids : ∀ (s : List TRow) (seen : List String),
    (dropDupFirst s seen).Pairwise (fun a b => a.research_id ≠ b.research_id) ∧
      ∀ x ∈ dropDupFirst s seen, x.research_id ∉ seen := by
  intro s
  induction s with
  | nil =>
    intro seen
    exact ⟨List.Pairwise.nil, fun x hx => absurd hx (List.not_mem_nil x)⟩
  | cons r rs ih =>
    intro seen
    by_cases hseen : r.research_id ∈ seen
    · rw [dropDupFirst_cons_mem r rs seen hseen]
      exact ih seen
    · rw [dropDupFirst_cons_not_mem r rs seen hseen]
      obtain ⟨ihp, ihs⟩ := ih (r.research_id :: seen)
      refine ⟨List.Pairwise.cons ?_ ihp, ?_⟩
      · intro b hb heq
        exact (ihs b hb) (heq ▸ List.mem_cons_self _ _)
      · intro x hx
        rcases List.mem_cons.mp hx with h | h
        · rw [h]
          exact hseen
        · exact fun hmem => (ihs x h) (List.mem_cons_of_mem _ hmem)

lemma pairwise_imp_mem {α : Type} {l : List α} {R S : α → α → Prop} (h : l.Pairwise R)
    (himp : ∀ a b, a ∈ l → b ∈ l → R a b → S a b) : l.Pairwise S := by
  induction h with
  | nil => exact List.Pairwise.nil
  | @cons hd tl hr _ ih =>
    refine List.Pairwise.cons ?_ (ih ?_)
    · intro b hb
      exact himp hd b (List.mem_cons_self hd tl) (List.mem_cons_of_mem hd hb) (hr b hb)
    · intro a b ha hb
      exact himp a b (List.mem_cons_of_mem hd ha) (List.mem_cons_of_mem hd hb)

/-- Counterexample to claim C1 as stated: two rows of student `a` tie on
the maximal grade 7 at original positions 0 and 1.  The reversed frame is
also a legal output of the unstable grade-descending sort, and under it
the surviving row is the one at position 1 — not the first-encountered
max-grade row (position 0) that the claim requires. -/
theorem keep_best_attempt_cex :
    IsSortValuesDesc [TRow.mk 0 ("a") 7, TRow.mk 1 ("a") 7]
        [TRow.mk 1 ("a") 7, TRow.mk 0 ("a") 7] ∧
      keep_best_attempt [TRow.mk 1 ("a") 7, TRow.mk 0 ("a") 7] = [TRow.mk 1 ("a") 7] ∧
      ([TRow.mk 0 ("a") 7, TRow.mk 1 ("a") 7].filter
          (fun x => decide (x.research_id = ("a") ∧ x.grade = 7))).head? =
        some (TRow.mk 0 ("a") 7) ∧
      TRow.mk 1 ("a") 7 ≠ TRow.mk 0 ("a") 7 := by
  refine ⟨by decide, by decide, by decide, by decide⟩

/-- Claim C1, amended: for every legal output of the grade-descending
sort (pandas' default quicksort guarantees only some grade-descending
permutation of the rows, the tie order being implementation-defined),
deduplication keeps exactly one row per present student id — a row of
maximal raw grade for that student — and the surviving rows appear in
increasing original row position (the original relative order).  Which
row survives among a tie on the maximal grade is implementation-defined
and is not asserted. -/
theorem keep_best_attempt_spec (rows sorted : List TRow)
    (hsort : IsSortValuesDesc rows sorted)
    (hidx : rows.Pairwise (fun a b => a.idx < b.idx)) (id : String)
    (hid : ∃ x ∈ rows, x.research_id = id) :
    (∃ r, (keep_best_attempt sorted).filter (fun x => decide (x.research_id = id)) = [r] ∧
        r ∈ rows ∧ r.research_id = id ∧
        (∀ x ∈ rows, x.research_id = id → x.grade ≤ r.grade)) ∧
      (keep_best_attempt sorted).Pairwise (fun a b => a.idx < b.idx) := by
  obtain ⟨hperm, hsorted⟩ := hsort
  obtain ⟨x0, hx0, hx0id⟩ := hid
  have hx0S : x0 ∈ sorted := hperm.mem_iff.mpr hx0
  have hx0F : x0 ∈ sorted.filter (fun r => decide (r.research_id = id)) :=
    List.mem_filter.mpr ⟨hx0S, decide_eq_true hx0id⟩
  cases hF : sorted.filter (fun r => decide (r.research_id = id)) with
  | nil =>
    rw [hF] at hx0F
    cases hx0F
  | cons y ys =>
    have hyF : y ∈ sorted.filter (fun r => decide (r.research_id = id)) := by
      rw [hF]
      exact List.mem_cons_self y ys
    have hyS : y ∈ sorted := (List.mem_filter.mp hyF).1
    have hyrows : y ∈ rows := hperm.mem_iff.mp hyS
    have hyid : y.research_id = id := by
      have h2 := (List.mem_filter.mp hyF).2
      rwa [decide_eq_true_eq] at h2
    have hDfil : (dropDupFirst sorted []).filter
        (fun r => decide (r.research_id = id)) = [y] := by
      rw [dropDupFirst_filter id sorted [], if_neg (List.not_mem_nil id), hF]
      rfl
    have houtfil : (keep_best_attempt sorted).filter (fun x => decide (x.research_id = id)) =
        [y] := by
      have hperm2 : List.Perm
          ((keep_best_attempt sorted).filter (fun x => decide (x.research_id = id)))
          ((dropDupFirst sorted []).filter (fun x => decide (x.research_id = id))) := by
        unfold keep_best_attempt
        exact (List.perm_insertionSort idxOrder _).filter _
      rw [hDfil] at hperm2
      exact List.perm_singleton.mp hperm2
    have hmax : ∀ x ∈ rows, x.research_id = id → x.grade ≤ y.grade := by
      intro x hx hxid
      have hxF : x ∈ sorted.filter (fun r => decide (r.research_id = id)) :=
        List.mem_filter.mpr ⟨hperm.mem_iff.mpr hx, decide_eq_true hxid⟩
      rw [hF] at hxF
      rcases List.mem_cons.mp hxF with h | h
      · rw [h]
      · have hsF : List.Sorted gradeDescOrder
            (sorted.filter (fun r => decide (r.research_id = id))) :=
          List.Sorted.filter _ hsorted
        rw [hF] at hsF
        exact List.rel_of_sorted_cons hsF x h
    refine ⟨⟨y, houtfil, hyrows, hyid, hmax⟩, ?_⟩
    have hsortedOut : List.Sorted idxOrder (keep_best_attempt sorted) := by
      unfold keep_best_attempt
      exact List.sorted_insertionSort idxOrder _
    have hidsD : (dropDupFirst sorted []).Pairwise
        (fun a b => a.research_id ≠ b.research_id) :=
      (dropDupFirst_ids sorted []).1
    have hidsOut : (keep_best_attempt sorted).Pairwise
        (fun a b => a.research_id ≠ b.research_id) := by
      unfold keep_best_attempt
      refine ((List.perm_insertionSort idxOrder _).pairwise_iff ?_).mpr hidsD
      intro a b hne heq
      exact hne heq.symm
    have hmemrows : ∀ x ∈ keep_best_attempt sorted, x ∈ rows := by
      intro x hx
      unfold keep_best_attempt at hx
      rw [List.mem_insertionSort] at hx
      exact hperm.mem_iff.mp (dropDupFirst_subset _ _ _ hx)
    have hinj : ∀ a ∈ rows, ∀ b ∈ rows, a.idx = b.idx → a = b := by
      have hnodup : (rows.map TRow.idx).Nodup := by
        have hp : (rows.map TRow.idx).Pairwise (· < ·) := by
          rw [List.pairwise_map]
          exact hidx
        exact hp.imp Nat.ne_of_lt
      exact fun a ha b hb => List.inj_on_of_nodup_map hnodup ha hb
    have hcomb := hsortedOut.and hidsOut
    apply pairwise_imp_mem hcomb
    intro a b ha hb hab
    rcases Nat.lt_or_ge a.idx b.idx with h | h
    · exact h
    · rcases Nat.eq_or_lt_of_le h with heq | hlt
      · exact absurd (hinj b (hmemrows b hb) a (hmemrows a ha) heq)
          (fun h2 => hab.2 (by rw [h2]))
      · exact absurd hab.1 (by unfold idxOrder; omega)

/-- Witness for claim C1's theorem: four raw rows, student `a` appearing
three times with maximal grade 7 twice; under a concrete legal
grade-descending sort the survivor is a maximal-grade row of `a` and the
output keeps original order. -/
theorem keep_best_attempt_spec_witness :
    IsSortValuesDesc [TRow.mk 0 ("a") 5, TRow.mk 1 ("a") 7, TRow.mk 2 ("b") 7,
        TRow.mk 3 ("a") 7]
      [TRow.mk 1 ("a") 7, TRow.mk 2 ("b") 7, TRow.mk 3 ("a") 7, TRow.mk 0 ("a") 5] ∧
      ([TRow.mk 0 ("a") 5, TRow.mk 1 ("a") 7, TRow.mk 2 ("b") 7,
        TRow.mk 3 ("a") 7].Pairwise (fun a b => a.idx < b.idx)) ∧
      (∃ x ∈ [TRow.mk 0 ("a") 5, TRow.mk 1 ("a") 7, TRow.mk 2 ("b") 7, TRow.mk 3 ("a") 7],
        x.research_id = ("a")) ∧
      ((∃ r, (keep_best_attempt [TRow.mk 1 ("a") 7, TRow.mk 2 ("b") 7, TRow.mk 3 ("a") 7,
            TRow.mk 0 ("a") 5]).filter (fun x => decide (x.research_id = ("a"))) = [r] ∧
          r ∈ [TRow.mk 0 ("a") 5, TRow.mk 1 ("a") 7, TRow.mk 2 ("b") 7, TRow.mk 3 ("a") 7] ∧
          r.research_id = ("a") ∧
          (∀ x ∈ [TRow.mk 0 ("a") 5, TRow.mk 1 ("a") 7, TRow.mk 2 ("b") 7, TRow.mk 3 ("a") 7],
            x.research_id = ("a") → x.grade ≤ r.grade)) ∧
        (keep_best_attempt [TRow.mk 1 ("a") 7, TRow.mk 2 ("b") 7, TRow.mk 3 ("a") 7,
          TRow.mk 0 ("a") 5]).Pairwise (fun a b => a.idx < b.idx)) :=
  ⟨by decide, by decide, by decide,
    keep_best_attempt_spec
      [TRow.mk 0 ("a") 5, TRow.mk 1 ("a") 7, TRow.mk 2 ("b") 7, TRow.mk 3 ("a") 7]
      [TRow.mk 1 ("a") 7, TRow.mk 2 ("b") 7, TRow.mk 3 ("a") 7, TRow.mk 0 ("a") 5]
      (by decide) (by decide) ("a") (by decide)⟩

end StudentMonitoring
